import Mathlib

/-!
Shallow embedding of the DHT22 one-wire protocol decoder (src/dht22.c) and
proofs about it.

The external effects of the decoder (GPIO reads, wall-clock time, the
scheduler) are modelled as explicit inputs:

* The Timed Wait Primitive (`sensorLowHighWait`) and the Byte Sampler
  (`retrieveByte`) are embedded over a line trace `read : Nat → Bool`
  (the level returned by `digitalRead` at each microsecond tick) together
  with an explicit current time; each polling iteration of a busy-wait loop
  consumes one tick, and `delayMicroseconds(30)` advances time by 30 ticks.
* The Protocol Session (`querySensor`) is embedded over a `Session` record
  carrying the results of its subcalls: the initial acknowledgement wait,
  the five `retrieveByte` results, and the `timersub` of the two
  `gettimeofday` timestamps (an injected clock).  Its result records the
  session outcome, the 4-byte output array and the scheduling policy the
  thread holds when the function returns.
* The Measurement Orchestrator (`parseSensorOutput`) is embedded over a
  stream `Nat → Session` of per-attempt worlds; its result also counts the
  number of Protocol Session attempts performed.

Machine bytes (`uint8_t`) are modelled as `Nat` with explicit `% 256`
where the C code can wrap; the C `double` fields of `struct sensorOutput`
are modelled as `ℚ` (every value the decoder produces is a small decimal,
so the comparisons against the range constants agree with the C doubles).
-/

namespace DHT22

/-- Scheduling policy of the calling thread: `SCHED_FIFO` at maximum
priority (`setMaximumPriority`, src/dht22.c lines 49-56) or `SCHED_OTHER`
at priority 0 (`setDefaultPriority`, lines 59-66). -/
inductive SchedPolicy where
  | fifoMax
  | other
  deriving DecidableEq

/-- `QUERYRETRIES` (src/dht22.c line 46). -/
def QUERYRETRIES : Nat := 4

/-- Modelled from the spec: `SENSOR_TMP_MIN` lives in dht22.h, which is part
of the repository but not under src/; the spec gives the documented
temperature range as -40 to +80 degrees. -/
def SENSOR_TMP_MIN : ℚ := -40

/-- Modelled from the spec: `SENSOR_TMP_MAX` from dht22.h (not under src/),
upper end of the documented temperature range. -/
def SENSOR_TMP_MAX : ℚ := 80

/-- Modelled from the spec: `SENSOR_HUM_MIN` from dht22.h (not under src/),
lower end of the documented humidity range 0% to 100% RH. -/
def SENSOR_HUM_MIN : ℚ := 0

/-- Modelled from the spec: `SENSOR_HUM_MAX` from dht22.h (not under src/),
upper end of the documented humidity range. -/
def SENSOR_HUM_MAX : ℚ := 100

/-- Modelled from the spec: `SENSOR_NA` from dht22.h (not under src/) is a
fixed numeric sentinel meaning "not available"; the spec does not give its
value, only that it is a fixed number distinct from any in-range reading, so
any fixed out-of-range value represents it faithfully. -/
def SENSOR_NA : ℚ := -255

/-- `struct sensorOutput` (declared in dht22.h; its two fields are visible
from their uses at src/dht22.c lines 231-254). -/
structure sensorOutput where
  temperature : ℚ
  humidity : ℚ
  deriving DecidableEq

/-- The view one Protocol Session has of the outside world, abstracting the
subcalls `querySensor` (src/dht22.c lines 138-205) makes:
`ackWait` is the result of the initial `sensorLowHighWait` call (line 163),
`bytes i` the value returned by the i-th `retrieveByte` call (line 169),
and `tookSec`/`tookUsec` the `timersub` of the two `gettimeofday`
timestamps (lines 146, 184, 187) — the injected clock. -/
structure Session where
  ackWait : Bool
  bytes : Nat → Nat
  tookSec : Int
  tookUsec : Int

/-- The zeroed `sensorData` array (`memset` at src/dht22.c line 226). -/
def zeroResults : Nat → Nat := fun _ => 0

/-- Embedding of `querySensor` (src/dht22.c lines 138-205) over a `Session`.
Returns (session result, `results` output array, scheduling policy held by
the thread on return).  `setMaximumPriority()` runs first (line 143); the
early return on acknowledgement failure (lines 163-165) happens before
`setDefaultPriority()` (line 190), which runs before the elapsed-time check
(line 199).  `queryChecksum` is a `uint8_t`, so each `+=` wraps mod 256, and
`&= 0xFF` (line 181) is again mod 256. -/
def querySensor (s : Session) (results : Nat → Nat) :
    Bool × (Nat → Nat) × SchedPolicy :=
  -- setMaximumPriority(); wake sequence (pinMode/digitalWrite/delay);
  -- pinMode(GPIO, INPUT)
  if s.ackWait = false then
    -- if (!sensorLowHighWait(GPIO)) return FALSE;  — no restore of priority
    (false, results, SchedPolicy.fifoMax)
  else
    -- the retrieval loop copies bytes 0..3 into results and sums them
    let results := fun i => if i < 4 then s.bytes i else results i
    let queryChecksum :=
      ((((0 + s.bytes 0) % 256 + s.bytes 1) % 256 + s.bytes 2) % 256
        + s.bytes 3) % 256
    let queryChecksum := queryChecksum % 256  -- queryChecksum &= 0xFF
    -- setDefaultPriority()
    if s.tookSec ≠ 0 ∨ 16000 < s.tookUsec then
      (false, results, SchedPolicy.other)
    else
      (queryChecksum == s.bytes 4, results, SchedPolicy.other)

/-- Temperature decoding (src/dht22.c lines 231, 235-237): the raw value
`(sensorData[2]*256+sensorData[3])/10.0`, negated when the sign bit `0x80`
of `sensorData[2]` is set.  The sign bit is NOT masked off the magnitude. -/
def decodeTemperature (b2 b3 : Nat) : ℚ :=
  let t : ℚ := ((b2 * 256 + b3 : Nat) : ℚ) / 10
  if b2 &&& 128 ≠ 0 then -t else t

/-- Humidity decoding (src/dht22.c line 232). -/
def decodeHumidity (b0 b1 : Nat) : ℚ := ((b0 * 256 + b1 : Nat) : ℚ) / 10

/-- The `result` struct as filled in by src/dht22.c lines 231-237 from the
4-byte `sensorData` array. -/
def decodeOutput (data : Nat → Nat) : sensorOutput :=
  { temperature := decodeTemperature (data 2) (data 3)
    humidity := decodeHumidity (data 0) (data 1) }

/-- The range check of src/dht22.c line 240. -/
def inRange (o : sensorOutput) : Bool :=
  decide (SENSOR_TMP_MIN ≤ o.temperature) &&
  decide (o.temperature ≤ SENSOR_TMP_MAX) &&
  decide (SENSOR_HUM_MIN ≤ o.humidity) &&
  decide (o.humidity ≤ SENSOR_HUM_MAX)

/-- The retry loop of `parseSensorOutput` (src/dht22.c lines 224-248),
parameterised by the per-attempt worlds.  `fuel` is the remaining value of
`queryRetries`; `i` counts the Protocol Session attempts already made (and
indexes the world of the next attempt).  The second component of the result is
the total number of attempts performed. -/
def parseLoop (env : Nat → Session) : Nat → Nat → sensorOutput × Nat
  | 0, i =>
    -- retries exhausted: both outputs set to SENSOR_NA (lines 253-254)
    ({ temperature := SENSOR_NA, humidity := SENSOR_NA }, i)
  | fuel + 1, i =>
    -- memset(sensorData, 0, sizeof(sensorData));
    let q := querySensor (env i) zeroResults
    if q.1 then
      let result := decodeOutput q.2.1
      if inRange result then (result, i + 1)
      else parseLoop env fuel (i + 1)  -- delay(2000); retry
    else parseLoop env fuel (i + 1)    -- delay(2000); retry

/-- Embedding of `parseSensorOutput` (src/dht22.c lines 208-258) after the
`wiringPiSetup` check (the GPIO driver is an external collaborator; its
failure terminates the process before any session).  `queryRetries` starts
at `QUERYRETRIES+1` (line 221). -/
def parseSensorOutput (env : Nat → Session) : sensorOutput × Nat :=
  parseLoop env (QUERYRETRIES + 1) 0

/-- Whether one attempt yields a successful session whose decoded values
pass the range check — i.e. whether the loop body of lines 229-243 returns. -/
def attemptGood (s : Session) : Bool :=
  let q := querySensor s zeroResults
  q.1 && inRange (decodeOutput q.2.1)

/-- The measurement an attempt decodes from the output array of its session. -/
def attemptOutput (s : Session) : sensorOutput :=
  decodeOutput (querySensor s zeroResults).2.1

/-! Concrete worlds used as evaluation inputs. -/

/-- A session whose initial acknowledgement wait fails. -/
def ackFailSession : Session :=
  { ackWait := false, bytes := zeroResults, tookSec := 0, tookUsec := 0 }

/-- The raw payload of the end-to-end scenario in the spec:
`[0x02, 0x8C, 0x01, 0x08, 0x97]`. -/
def goodBytes : Nat → Nat := fun i => [2, 140, 1, 8, 151].getD i 0

/-- A fully successful session: acknowledgement seen, valid checksum,
elapsed time 15010 µs (the nominal duration). -/
def goodSession : Session :=
  { ackWait := true, bytes := goodBytes, tookSec := 0, tookUsec := 15010 }

/-- A session that took more than one full second. -/
def timingFailSession : Session :=
  { ackWait := true, bytes := goodBytes, tookSec := 1, tookUsec := 0 }

/-- A session with a wrong checksum byte (0x96 instead of 0x97). -/
def checksumFailSession : Session :=
  { ackWait := true, bytes := fun i => [2, 140, 1, 8, 150].getD i 0,
    tookSec := 0, tookUsec := 15010 }

/-- A session with a valid checksum that took 16001 µs. -/
def slowSession : Session :=
  { ackWait := true, bytes := goodBytes, tookSec := 0, tookUsec := 16001 }

/-- The world in which the acknowledgement wait of every attempt fails. -/
def allFailEnv : Nat → Session := fun _ => ackFailSession

/-- The world in which every attempt is the good session. -/
def goodEnv : Nat → Session := fun _ => goodSession

/-!
The line-trace model for `sensorLowHighWait` and `retrieveByte`.

`read t` is the level `digitalRead` returns at tick `t` (one tick per
microsecond; `HIGH = true`, `LOW = false`).  Each iteration of a busy-wait
polling loop consumes one tick, so the 1 ms (`timeOut.tv_usec = 1000`)
deadline measured from the start of the sub-wait itself allows polls at offsets
`0..1000` from it; `delayMicroseconds(30)` advances the clock by 30 ticks,
and a single `digitalRead` sample is instantaneous.
-/

/-- One bounded polling loop of `sensorLowHighWait` (src/dht22.c lines
80-87 and 96-103): poll the line each tick starting at `t` until it reads
`target`, giving up once the budget of `fuel` further ticks is exhausted.
Returns the tick at which the line first read `target`, if any. -/
def waitUntil (read : Nat → Bool) (target : Bool) : Nat → Nat → Option Nat
  | t, 0 => if read t = target then some t else none
  | t, fuel + 1 =>
    if read t = target then some t else waitUntil read target (t + 1) fuel

/-- Embedding of `sensorLowHighWait` (src/dht22.c lines 69-107), returning
the completion tick: first wait (1 ms budget, lines 73-87) while the line
reads HIGH — i.e. until it reads LOW — then wait (a fresh 1 ms budget
taken at the second `gettimeofday`, lines 90-103) while it reads LOW —
i.e. until it reads HIGH. -/
def sensorLowHighWaitT (read : Nat → Bool) (t0 : Nat) : Option Nat :=
  match waitUntil read false t0 1000 with
  | none => none
  | some t1 => waitUntil read true t1 1000

/-- The Boolean result of `sensorLowHighWait` (TRUE iff both transitions
completed within their budgets). -/
def sensorLowHighWait (read : Nat → Bool) (t0 : Nat) : Bool :=
  (sensorLowHighWaitT read t0).isSome

/-- The bit loop of `retrieveByte` (src/dht22.c lines 114-131) with `n`
bits left to read, the current tick, and the accumulated `result` byte:
wait for the low-to-high transition (abort with 0 on failure, line 117),
`delayMicroseconds(30)`, shift `result` left (a `uint8_t`, hence mod 256),
and set the fresh bit to the sampled line level.  Returns the byte and the
tick after the last sample. -/
def retrieveByteAux (read : Nat → Bool) : Nat → Nat → Nat → Nat × Nat
  | 0, t, result => (result, t)
  | n + 1, t, result =>
    match sensorLowHighWaitT read t with
    | none => (0, t)
    | some t1 =>
      let shifted := result * 2 % 256
      let result2 := if read (t1 + 30) = true then shifted + 1 else shifted
      retrieveByteAux read n (t1 + 30) result2

/-- Embedding of `retrieveByte` (src/dht22.c lines 110-135): 8 bits,
starting from `result = 0x00`. -/
def retrieveByte (read : Nat → Bool) (t0 : Nat) : Nat :=
  (retrieveByteAux read 8 t0 0).1

/-- Modelled from the spec (the refinement target for the Byte Sampler
claim, not itself part of the source): the sequence of bit-cell samples.
For each of `n` bit cells: wait for the low-to-high transition — if that
wait fails the whole sample aborts — then wait the fixed 30 µs interval
and sample the instantaneous line level.  Returns the sampled levels in
order together with the tick after the last sample. -/
def byteSamplerBits (read : Nat → Bool) : Nat → Nat → Option (List Bool × Nat)
  | 0, t => some ([], t)
  | n + 1, t =>
    match sensorLowHighWaitT read t with
    | none => none
    | some t1 =>
      match byteSamplerBits read n (t1 + 30) with
      | none => none
      | some (bits, tEnd) => some (read (t1 + 30) :: bits, tEnd)

/-- The accumulation order the spec describes: each sampled level is shifted into the
result most-significant bit first — high means 1, low means 0. -/
def msbValue (bits : List Bool) : Nat :=
  bits.foldl (fun a b => if b = true then a * 2 + 1 else a * 2) 0

/-- The same accumulation as performed on a `uint8_t` (shift wraps mod
256), from an arbitrary starting accumulator; proof scaffolding for
relating `retrieveByteAux` to `byteSamplerBits`. -/
def msbFoldMod (acc : Nat) (bits : List Bool) : Nat :=
  bits.foldl (fun a b => if b = true then a * 2 % 256 + 1 else a * 2 % 256) acc

/-! Theorems.  First, helper lemmas shared by several claims. -/

/-- A number with the 0x80 bit set is at least 128. -/
lemma le_of_and_128_ne_zero {n : Nat} (h : n &&& 128 ≠ 0) : 128 ≤ n := by
  have h7 : n.testBit 7 = true := by
    cases h7 : n.testBit 7 with
    | true => rfl
    | false =>
      exfalso
      apply h
      have hand := Nat.and_two_pow n 7
      rw [h7] at hand
      simpa using hand
  simpa using Nat.testBit_implies_ge h7

/-- With the sign bit set, the decoded temperature is at most -3276.8. -/
lemma decodeTemperature_sign_set {b2 : Nat} (b3 : Nat) (h : b2 &&& 128 ≠ 0) :
    decodeTemperature b2 b3 ≤ -(32768 / 10) := by
  have h128 := le_of_and_128_ne_zero h
  have hb : (32768 : Nat) ≤ b2 * 256 + b3 := by omega
  have hq : (32768 : ℚ) ≤ ((b2 * 256 + b3 : Nat) : ℚ) := by exact_mod_cast hb
  simp only [decodeTemperature, if_pos h]
  linarith

/-- With the sign bit clear, the decoded temperature is non-negative. -/
lemma decodeTemperature_sign_clear {b2 : Nat} (b3 : Nat) (h : b2 &&& 128 = 0) :
    0 ≤ decodeTemperature b2 b3 := by
  simp only [decodeTemperature, if_neg (show ¬b2 &&& 128 ≠ 0 from fun hn => hn h)]
  positivity

/-- Unfolding of the range check into the four comparisons. -/
lemma inRange_eq_true_iff (o : sensorOutput) :
    inRange o = true ↔
      SENSOR_TMP_MIN ≤ o.temperature ∧ o.temperature ≤ SENSOR_TMP_MAX ∧
      SENSOR_HUM_MIN ≤ o.humidity ∧ o.humidity ≤ SENSOR_HUM_MAX := by
  simp [inRange, Bool.and_eq_true, decide_eq_true_eq, and_assoc]

/-- The decoded output of a good attempt passes the range check. -/
lemma attemptGood_inRange {s : Session} (h : attemptGood s = true) :
    inRange (attemptOutput s) = true := by
  simp only [attemptGood, Bool.and_eq_true] at h
  simpa [attemptOutput] using h.2

/-- The decoded temperature of a good attempt is non-negative: with the sign bit
set the (unmasked) value is at most -3276.8, below `SENSOR_TMP_MIN`, so the
range check would have rejected it. -/
lemma attemptGood_temp_nonneg {s : Session} (h : attemptGood s = true) :
    0 ≤ (attemptOutput s).temperature := by
  have hr := (inRange_eq_true_iff _).mp (attemptGood_inRange h)
  by_cases hs : (querySensor s zeroResults).2.1 2 &&& 128 = 0
  · simpa [attemptOutput, decodeOutput] using
      decodeTemperature_sign_clear ((querySensor s zeroResults).2.1 3) hs
  · exfalso
    have hle := decodeTemperature_sign_set ((querySensor s zeroResults).2.1 3) hs
    have htmp : (attemptOutput s).temperature ≤ -(32768 / 10) := by
      simpa [attemptOutput, decodeOutput] using hle
    have hmin : SENSOR_TMP_MIN = -40 := rfl
    have := hr.1
    rw [hmin] at this
    linarith

/-- Base case of the retry loop. -/
lemma parseLoop_zero (env : Nat → Session) (i : Nat) :
    parseLoop env 0 i = ({ temperature := SENSOR_NA, humidity := SENSOR_NA }, i) :=
  rfl

/-- A good attempt terminates the retry loop at once. -/
lemma parseLoop_succ_good (env : Nat → Session) (fuel i : Nat)
    (h : attemptGood (env i) = true) :
    parseLoop env (fuel + 1) i = (attemptOutput (env i), i + 1) := by
  simp only [attemptGood, Bool.and_eq_true] at h
  simp only [parseLoop, attemptOutput, h.1, h.2, if_true]

/-- A failed or out-of-range attempt makes the retry loop continue. -/
lemma parseLoop_succ_bad (env : Nat → Session) (fuel i : Nat)
    (h : attemptGood (env i) = false) :
    parseLoop env (fuel + 1) i = parseLoop env fuel (i + 1) := by
  simp only [attemptGood] at h
  cases hq : (querySensor (env i) zeroResults).1 with
  | false => simp only [parseLoop, hq, Bool.false_eq_true, if_false]
  | true =>
    rw [hq, Bool.true_and] at h
    simp only [parseLoop, hq, if_true, h, Bool.false_eq_true, if_false]

/-- The retry loop makes at most `fuel` further attempts. -/
lemma parseLoop_count_le (env : Nat → Session) :
    ∀ fuel i, (parseLoop env fuel i).2 ≤ i + fuel := by
  intro fuel
  induction fuel with
  | zero => intro i; simp [parseLoop_zero]
  | succ n ih =>
    intro i
    cases h : attemptGood (env i) with
    | false =>
      rw [parseLoop_succ_bad env n i h]
      have := ih (i + 1)
      omega
    | true =>
      rw [parseLoop_succ_good env n i h]
      omega

/-- If every attempt in the window fails, the loop exhausts its fuel and
returns the sentinel. -/
lemma parseLoop_all_bad (env : Nat → Session) :
    ∀ fuel i, (∀ j, i ≤ j → j < i + fuel → attemptGood (env j) = false) →
      parseLoop env fuel i =
        ({ temperature := SENSOR_NA, humidity := SENSOR_NA }, i + fuel) := by
  intro fuel
  induction fuel with
  | zero => intro i _; rfl
  | succ n ih =>
    intro i h
    have h0 : attemptGood (env i) = false := h i le_rfl (by omega)
    rw [parseLoop_succ_bad env n i h0, ih (i + 1) (fun j hj hj2 => h j (by omega) (by omega))]
    have : i + 1 + n = i + (n + 1) := by omega
    rw [this]

/-- The output of the loop is either the sentinel pair or the decoded output of
some good attempt. -/
lemma parseLoop_out_cases (env : Nat → Session) :
    ∀ fuel i, (parseLoop env fuel i).1 =
        ({ temperature := SENSOR_NA, humidity := SENSOR_NA } : sensorOutput) ∨
      ∃ s, attemptGood s = true ∧ (parseLoop env fuel i).1 = attemptOutput s := by
  intro fuel
  induction fuel with
  | zero => intro i; left; rfl
  | succ n ih =>
    intro i
    cases h : attemptGood (env i) with
    | false => rw [parseLoop_succ_bad env n i h]; exact ih (i + 1)
    | true =>
      right
      exact ⟨env i, h, by rw [parseLoop_succ_good env n i h]⟩

/-- If the first `d` attempts fail and attempt `d` is good, the loop stops
right after attempt `d`. -/
lemma parseLoop_first_good (env : Nat → Session) :
    ∀ d fuel i, d < fuel →
      (∀ j, j < d → attemptGood (env (i + j)) = false) →
      attemptGood (env (i + d)) = true →
      parseLoop env fuel i = (attemptOutput (env (i + d)), i + d + 1) := by
  intro d
  induction d with
  | zero =>
    intro fuel i hlt _ hgood
    match fuel, hlt with
    | n + 1, _ =>
      rw [parseLoop_succ_good env n i (by simpa using hgood)]
      simp
  | succ d ih =>
    intro fuel i hlt hbad hgood
    match fuel, hlt with
    | n + 1, _ =>
      have h0 : attemptGood (env i) = false := by simpa using hbad 0 (by omega)
      rw [parseLoop_succ_bad env n i h0]
      have harith : i + 1 + d = i + (d + 1) := by omega
      have := ih n (i + 1) (by omega)
        (fun j hj => by
          have := hbad (j + 1) (by omega)
          rwa [show i + 1 + j = i + (j + 1) from by omega])
        (by rwa [harith])
      rwa [harith] at this

/-! Concrete evaluations used by witnesses. -/

/-- The protocol query of the good session succeeds. -/
lemma querySensor_goodSession_fst :
    (querySensor goodSession zeroResults).1 = true := by decide

/-- The good session decodes to 26.4 degrees and 65.2 percent. -/
lemma attemptOutput_goodSession :
    attemptOutput goodSession =
      { temperature := 264 / 10, humidity := 652 / 10 } := by
  simp only [attemptOutput, querySensor, goodSession, decodeOutput,
    decodeTemperature, decodeHumidity, goodBytes, zeroResults]
  norm_num

/-- The attempt of the good session passes the range check. -/
lemma attemptGood_goodSession : attemptGood goodSession = true := by
  rw [attemptGood]
  have h1 : (querySensor goodSession zeroResults).1 = true :=
    querySensor_goodSession_fst
  rw [h1, Bool.true_and]
  have h2 : decodeOutput (querySensor goodSession zeroResults).2.1 =
      attemptOutput goodSession := rfl
  rw [h2, attemptOutput_goodSession, inRange_eq_true_iff]
  refine ⟨?_, ?_, ?_, ?_⟩ <;> norm_num [SENSOR_TMP_MIN, SENSOR_TMP_MAX,
    SENSOR_HUM_MIN, SENSOR_HUM_MAX]

/-- An attempt whose acknowledgement wait fails is not good. -/
lemma attemptGood_ackFail : attemptGood ackFailSession = false := by
  rw [attemptGood]
  have h1 : (querySensor ackFailSession zeroResults).1 = false := rfl
  rw [h1, Bool.false_and]

/-! The claim theorems. -/

/-- Claim C1: the spec says the sign bit of byte[2] must be masked off before
forming the magnitude `(byte[2]*256 + byte[3])/10`, so that byte[2]=0x81,
byte[3]=0x08 decodes to -26.4.  The code does not mask the sign bit: it
decodes that input to -(0x81*256+0x08)/10 = -3303.2, not -26.4. -/
theorem claim1_sign_bit_not_masked :
    decodeTemperature 129 8 = -(33032 / 10) ∧
    decodeTemperature 129 8 ≠ -(264 / 10) := by
  have hbit : 129 &&& 128 ≠ 0 := by decide
  constructor
  · simp only [decodeTemperature, if_pos hbit]
    norm_num
  · simp only [decodeTemperature, if_pos hbit]
    norm_num

/-- Claim C2: the spec says every exit path of `querySensor` restores the
default time-sharing policy.  The acknowledgement-failure exit (src/dht22.c
lines 163-165) returns before `setDefaultPriority()` (line 190) and leaves
the thread at `SCHED_FIFO` maximum priority; the timing-failure,
checksum-failure and success exits do restore the default policy. -/
theorem claim2_priority_not_restored_on_ack_failure :
    (querySensor ackFailSession zeroResults).1 = false ∧
    (querySensor ackFailSession zeroResults).2.2 = SchedPolicy.fifoMax ∧
    (querySensor timingFailSession zeroResults).2.2 = SchedPolicy.other ∧
    (querySensor checksumFailSession zeroResults).2.2 = SchedPolicy.other ∧
    (querySensor goodSession zeroResults).2.2 = SchedPolicy.other := by
  refine ⟨rfl, rfl, ?_, ?_, ?_⟩ <;> decide

/-- Claim C3: a session that reaches the elapsed-time check (its
acknowledgement wait succeeded) fails whenever the measured elapsed time has
a non-zero seconds component, or zero seconds and strictly more than
16000 µs — regardless of the payload bytes and hence of the checksum. -/
theorem claim3_timing_failure (s : Session) (results : Nat → Nat)
    (hack : s.ackWait = true)
    (htime : s.tookSec ≠ 0 ∨ (s.tookSec = 0 ∧ 16000 < s.tookUsec)) :
    (querySensor s results).1 = false := by
  unfold querySensor
  rw [hack]
  have hcond : s.tookSec ≠ 0 ∨ 16000 < s.tookUsec := by
    rcases htime with h | ⟨_, h⟩
    · exact Or.inl h
    · exact Or.inr h
  simp only [Bool.true_eq_false, if_false, if_pos hcond]

/-- Witness for claim C3: `slowSession` has a valid checksum but took
16001 µs, and the session fails. -/
theorem claim3_timing_failure_witness :
    (querySensor slowSession zeroResults).1 = false :=
  claim3_timing_failure slowSession zeroResults rfl
    (Or.inr ⟨rfl, by decide⟩)

/-- Claim C4: when the acknowledgement was seen and the elapsed time is
within budget (zero seconds, at most 16000 µs), the session succeeds iff
the sum of the first four retrieved bytes mod 256 equals the fifth. -/
theorem claim4_checksum_iff (s : Session) (results : Nat → Nat)
    (hack : s.ackWait = true) (hsec : s.tookSec = 0)
    (husec : s.tookUsec ≤ 16000) :
    ((querySensor s results).1 = true ↔
      (s.bytes 0 + s.bytes 1 + s.bytes 2 + s.bytes 3) % 256 = s.bytes 4) := by
  unfold querySensor
  rw [hack]
  have hcond : ¬(s.tookSec ≠ 0 ∨ 16000 < s.tookUsec) := by
    rintro (h | h)
    · exact h hsec
    · exact absurd husec (not_le.mpr h)
  simp only [Bool.true_eq_false, if_false, if_neg hcond, beq_iff_eq]
  omega

/-- Witness for claim C4: the end-to-end payload
`[0x02,0x8C,0x01,0x08,0x97]` has a matching checksum and the session
succeeds. -/
theorem claim4_checksum_iff_witness :
    (querySensor goodSession zeroResults).1 = true :=
  (claim4_checksum_iff goodSession zeroResults rfl rfl (by decide)).mpr
    (by decide)

/-- Claim C5: the orchestrator performs at most 5 Protocol Session attempts,
and when all 5 attempts fail (or succeed only out of range) it performs no
6th attempt and returns the "not available" sentinel in both fields. -/
theorem claim5_retry_bound (env : Nat → Session) :
    (parseSensorOutput env).2 ≤ 5 ∧
    ((∀ j, j < 5 → attemptGood (env j) = false) →
      (parseSensorOutput env).1.temperature = SENSOR_NA ∧
      (parseSensorOutput env).1.humidity = SENSOR_NA ∧
      (parseSensorOutput env).2 = 5) := by
  constructor
  · have := parseLoop_count_le env (QUERYRETRIES + 1) 0
    simpa [parseSensorOutput, QUERYRETRIES] using this
  · intro h
    have hall := parseLoop_all_bad env (QUERYRETRIES + 1) 0
      (fun j _ hj => h j (by simpa [QUERYRETRIES] using hj))
    rw [parseSensorOutput, hall]
    exact ⟨rfl, rfl, rfl⟩

/-- Witness for claim C5: in the world where every acknowledgement wait
fails, the orchestrator returns the sentinel after exactly 5 attempts. -/
theorem claim5_retry_bound_witness :
    (parseSensorOutput allFailEnv).1.temperature = SENSOR_NA ∧
    (parseSensorOutput allFailEnv).1.humidity = SENSOR_NA ∧
    (parseSensorOutput allFailEnv).2 = 5 :=
  (claim5_retry_bound allFailEnv).2 (fun _ _ => attemptGood_ackFail)

/-- Claim C6: the public interface never returns a negative temperature:
every orchestrator result is either the sentinel pair or has non-negative
temperature, because with the sign bit set the unmasked magnitude
`(byte[2]*256+byte[3])/10` is at least 3276.8, so the negated value lies
below the documented minimum and fails the range check. -/
theorem claim6_no_negative_temperature :
    (∀ env : Nat → Session,
      ((parseSensorOutput env).1.temperature = SENSOR_NA ∧
        (parseSensorOutput env).1.humidity = SENSOR_NA) ∨
      0 ≤ (parseSensorOutput env).1.temperature) ∧
    (∀ b2 b3 : Nat, b2 &&& 128 ≠ 0 →
      32768 / 10 ≤ -decodeTemperature b2 b3 ∧
      decodeTemperature b2 b3 < SENSOR_TMP_MIN) := by
  constructor
  · intro env
    rcases parseLoop_out_cases env (QUERYRETRIES + 1) 0 with h | ⟨s, hs, hout⟩
    · left
      rw [parseSensorOutput, h]
      exact ⟨rfl, rfl⟩
    · right
      rw [parseSensorOutput, hout]
      exact attemptGood_temp_nonneg hs
  · intro b2 b3 h
    have hle := decodeTemperature_sign_set b3 h
    have hmin : SENSOR_TMP_MIN = -40 := rfl
    constructor
    · linarith
    · rw [hmin]; linarith

/-- Witness for claim C6: byte[2]=0x81 has the sign bit set, and its decoded
temperature has magnitude at least 3276.8 and lies below the documented
minimum. -/
theorem claim6_no_negative_temperature_witness :
    32768 / 10 ≤ -decodeTemperature 129 8 ∧
    decodeTemperature 129 8 < SENSOR_TMP_MIN :=
  claim6_no_negative_temperature.2 129 8 (by decide)

/-- Claim C7: every non-sentinel orchestrator result lies within the
documented temperature and humidity ranges, and a first good attempt at
index `i` ends the orchestration immediately with `i + 1` total attempts. -/
theorem claim7_range_invariant (env : Nat → Session) :
    (((parseSensorOutput env).1.temperature = SENSOR_NA ∧
        (parseSensorOutput env).1.humidity = SENSOR_NA) ∨
      (SENSOR_TMP_MIN ≤ (parseSensorOutput env).1.temperature ∧
        (parseSensorOutput env).1.temperature ≤ SENSOR_TMP_MAX ∧
        SENSOR_HUM_MIN ≤ (parseSensorOutput env).1.humidity ∧
        (parseSensorOutput env).1.humidity ≤ SENSOR_HUM_MAX)) ∧
    (∀ i, i < 5 → (∀ j, j < i → attemptGood (env j) = false) →
      attemptGood (env i) = true →
      (parseSensorOutput env).2 = i + 1) := by
  constructor
  · rcases parseLoop_out_cases env (QUERYRETRIES + 1) 0 with h | ⟨s, hs, hout⟩
    · left
      rw [parseSensorOutput, h]
      exact ⟨rfl, rfl⟩
    · right
      rw [parseSensorOutput, hout]
      exact (inRange_eq_true_iff _).mp (attemptGood_inRange hs)
  · intro i hi hbad hgood
    have := parseLoop_first_good env i (QUERYRETRIES + 1) 0
      (by simpa [QUERYRETRIES] using hi)
      (fun j hj => by simpa using hbad j hj)
      (by simpa using hgood)
    rw [parseSensorOutput, this]
    simp

/-- Witness for claim C7: in the all-good world, the first attempt is good
and the orchestrator stops after exactly one attempt. -/
theorem claim7_range_invariant_witness :
    (parseSensorOutput goodEnv).2 = 0 + 1 :=
  (claim7_range_invariant goodEnv).2 0 (by omega)
    (fun j hj => absurd hj (Nat.not_lt_zero j)) attemptGood_goodSession

/-- Claim C8: on the raw payload `[0x02,0x8C,0x01,0x08,0x97]` the checksum
check of the session passes and the orchestrator returns
temperature 26.4, humidity 65.2, after exactly one attempt. -/
theorem claim8_end_to_end :
    (querySensor goodSession zeroResults).1 = true ∧
    (parseSensorOutput goodEnv).1.temperature = 264 / 10 ∧
    (parseSensorOutput goodEnv).1.humidity = 652 / 10 ∧
    (parseSensorOutput goodEnv).2 = 1 := by
  have hloop : parseSensorOutput goodEnv = (attemptOutput goodSession, 0 + 1) := by
    rw [parseSensorOutput]
    exact parseLoop_succ_good goodEnv QUERYRETRIES 0 attemptGood_goodSession
  refine ⟨querySensor_goodSession_fst, ?_, ?_, ?_⟩ <;>
    rw [hloop, attemptOutput_goodSession]

/-! Lemmas about the line-trace model, for claims C9 and C10. -/

/-- A bounded polling loop succeeds iff the line reads the target level at
some offset within the budget. -/
lemma waitUntil_isSome_iff (read : Nat → Bool) (target : Bool) :
    ∀ fuel t, (waitUntil read target t fuel).isSome = true ↔
      ∃ k, k ≤ fuel ∧ read (t + k) = target := by
  intro fuel
  induction fuel with
  | zero =>
    intro t
    by_cases h : read t = target
    · simp only [waitUntil, if_pos h, Option.isSome_some]
      exact ⟨fun _ => ⟨0, le_rfl, by simpa using h⟩, fun _ => trivial⟩
    · simp only [waitUntil, if_neg h, Option.isSome_none]
      constructor
      · intro hff
        exact (Bool.false_ne_true hff).elim
      · rintro ⟨k, hk, hr⟩
        obtain rfl : k = 0 := Nat.le_zero.mp hk
        rw [Nat.add_zero] at hr
        exact (h hr).elim
  | succ n ih =>
    intro t
    by_cases h : read t = target
    · simp only [waitUntil, if_pos h, Option.isSome_some]
      exact ⟨fun _ => ⟨0, Nat.zero_le _, by simpa using h⟩, fun _ => trivial⟩
    · simp only [waitUntil, if_neg h]
      rw [ih (t + 1)]
      constructor
      · rintro ⟨k, hk, hr⟩
        exact ⟨k + 1, by omega, by rwa [show t + (k + 1) = t + 1 + k from by omega]⟩
      · rintro ⟨k, hk, hr⟩
        cases k with
        | zero =>
          rw [Nat.add_zero] at hr
          exact (h hr).elim
        | succ k =>
          exact ⟨k, by omega, by rwa [show t + 1 + k = t + (k + 1) from by omega]⟩

/-- A bounded polling loop returns `some r` iff `r` is within the budget,
the line reads the target level at `r`, and at no earlier polled tick. -/
lemma waitUntil_eq_some_iff (read : Nat → Bool) (target : Bool) :
    ∀ fuel t r, waitUntil read target t fuel = some r ↔
      (t ≤ r ∧ r ≤ t + fuel ∧ read r = target ∧
        ∀ s, t ≤ s → s < r → read s ≠ target) := by
  intro fuel
  induction fuel with
  | zero =>
    intro t r
    by_cases h : read t = target
    · simp only [waitUntil, if_pos h, Option.some.injEq]
      constructor
      · rintro rfl
        exact ⟨le_rfl, by omega, h, fun s hs1 hs2 => by omega⟩
      · rintro ⟨h1, h2, _, _⟩
        omega
    · simp only [waitUntil, if_neg h]
      constructor
      · intro hf
        exact (Option.noConfusion hf)
      · rintro ⟨h1, h2, h3, _⟩
        obtain rfl : r = t := by omega
        exact (h h3).elim
  | succ n ih =>
    intro t r
    by_cases h : read t = target
    · simp only [waitUntil, if_pos h, Option.some.injEq]
      constructor
      · rintro rfl
        exact ⟨le_rfl, by omega, h, fun s hs1 hs2 => by omega⟩
      · rintro ⟨h1, _, _, h4⟩
        by_contra hne
        have hlt : t < r := lt_of_le_of_ne h1 hne
        exact h4 t le_rfl hlt h
    · simp only [waitUntil, if_neg h]
      rw [ih (t + 1) r]
      constructor
      · rintro ⟨h1, h2, h3, h4⟩
        refine ⟨by omega, by omega, h3, fun s hs1 hs2 => ?_⟩
        rcases Nat.eq_or_lt_of_le hs1 with rfl | hlt
        · exact h
        · exact h4 s (by omega) hs2
      · rintro ⟨h1, h2, h3, h4⟩
        have ht : t < r := by
          rcases Nat.eq_or_lt_of_le h1 with rfl | hlt
          · exact (h h3).elim
          · exact hlt
        exact ⟨by omega, by omega, h3, fun s hs1 hs2 => h4 s (by omega) hs2⟩

/-- The byte accumulated by `retrieveByteAux` is the `uint8_t` fold of the
spec-side bit-cell samples, and 0 when any transition wait fails. -/
lemma retrieveByteAux_fst (read : Nat → Bool) :
    ∀ n t acc, (retrieveByteAux read n t acc).1 =
      match byteSamplerBits read n t with
      | none => 0
      | some (bits, _) => msbFoldMod acc bits := by
  intro n
  induction n with
  | zero => intro t acc; rfl
  | succ n ih =>
    intro t acc
    cases hw : sensorLowHighWaitT read t with
    | none => simp only [retrieveByteAux, byteSamplerBits, hw]
    | some t1 =>
      simp only [retrieveByteAux, byteSamplerBits, hw]
      rw [ih (t1 + 30)]
      cases hb : byteSamplerBits read n (t1 + 30) with
      | none => rfl
      | some p =>
        obtain ⟨bits, tEnd⟩ := p
        rfl

/-- `byteSamplerBits` samples exactly `n` bit cells when it succeeds. -/
lemma byteSamplerBits_length (read : Nat → Bool) :
    ∀ n t bits tEnd, byteSamplerBits read n t = some (bits, tEnd) →
      bits.length = n := by
  intro n
  induction n with
  | zero =>
    intro t bits tEnd h
    simp only [byteSamplerBits, Option.some.injEq, Prod.mk.injEq] at h
    rw [← h.1]
    rfl
  | succ n ih =>
    intro t bits tEnd h
    simp only [byteSamplerBits] at h
    split at h
    · exact (Option.noConfusion h)
    · rename_i t1 heq1
      split at h
      · exact (Option.noConfusion h)
      · rename_i bits' tEnd' hb
        simp only [Option.some.injEq, Prod.mk.injEq] at h
        rw [← h.1]
        have := ih (t1 + 30) bits' tEnd' hb
        simp [this]

/-- On at most 8 bits the `uint8_t` fold never wraps: it agrees with the
plain most-significant-bit-first value and stays below 256. -/
lemma msbFoldMod_eq_msbValue :
    ∀ bits : List Bool, ∀ acc, bits.length ≤ 8 → acc < 2 ^ (8 - bits.length) →
      msbFoldMod acc bits =
        bits.foldl (fun a b => if b = true then a * 2 + 1 else a * 2) acc ∧
      msbFoldMod acc bits < 256 := by
  intro bits
  induction bits with
  | nil =>
    intro acc _ hacc
    simp only [List.length_nil, Nat.sub_zero] at hacc
    exact ⟨rfl, by simpa [msbFoldMod] using hacc⟩
  | cons b bs ih =>
    intro acc hlen hacc
    have hbs : bs.length ≤ 7 := by simpa using hlen
    have hexp : 8 - (b :: bs).length = 7 - bs.length := by
      simp only [List.length_cons]
      omega
    rw [hexp] at hacc
    have hple : (2 : Nat) ^ (7 - bs.length) ≤ 2 ^ 7 :=
      Nat.pow_le_pow_right (by norm_num) (by omega)
    have hsucc : (2 : Nat) ^ (8 - bs.length) = 2 ^ (7 - bs.length) * 2 := by
      rw [show 8 - bs.length = (7 - bs.length) + 1 from by omega, Nat.pow_succ]
    have hlt256 : acc * 2 < 256 := by
      have : acc < 128 := lt_of_lt_of_le hacc (by simpa using hple)
      omega
    have hmod : acc * 2 % 256 = acc * 2 := Nat.mod_eq_of_lt hlt256
    have hstep : (if b = true then acc * 2 % 256 + 1 else acc * 2 % 256) =
        (if b = true then acc * 2 + 1 else acc * 2) := by rw [hmod]
    have hacc2 : (if b = true then acc * 2 + 1 else acc * 2) < 2 ^ (8 - bs.length) := by
      rw [hsucc]
      cases b <;> simp <;> omega
    have := ih (if b = true then acc * 2 + 1 else acc * 2) (by omega) hacc2
    constructor
    · show List.foldl _ _ (b :: bs) = List.foldl _ _ (b :: bs)
      rw [List.foldl_cons, List.foldl_cons, hstep]
      exact this.1
    · show List.foldl _ _ (b :: bs) < 256
      rw [List.foldl_cons, hstep]
      exact this.2

/-- Claim C9: the Byte Sampler assembles one byte from exactly 8 bit cells,
most significant bit first: for each bit it waits for a low-to-high
transition, then samples the line 30 µs later, shifting in 1 when the line
is high and 0 when low; if any transition wait fails it returns the zero
byte — the return value is the only indication, and the result is always a
byte below 256. -/
theorem claim9_byte_sampler (read : Nat → Bool) (t0 : Nat) :
    retrieveByte read t0 =
      (match byteSamplerBits read 8 t0 with
        | none => 0
        | some (bits, _) => msbValue bits) ∧
    retrieveByte read t0 < 256 := by
  have hfst := retrieveByteAux_fst read 8 t0 0
  cases hb : byteSamplerBits read 8 t0 with
  | none =>
    rw [retrieveByte, hfst, hb]
    exact ⟨rfl, by norm_num⟩
  | some p =>
    obtain ⟨bits, tEnd⟩ := p
    have hlen : bits.length = 8 := byteSamplerBits_length read 8 t0 bits tEnd hb
    have hmv := msbFoldMod_eq_msbValue bits 0 (by omega) (by rw [hlen]; norm_num)
    rw [retrieveByte, hfst, hb]
    exact ⟨hmv.1, hmv.2⟩

/-- Claim C10: the Timed Wait Primitive succeeds iff the line first leaves
the HIGH level (reads LOW at some tick `t1` within 1 ms of the call, having
read HIGH at every earlier polled tick) and then reaches the HIGH level
within a fresh 1 ms budget measured from `t1`; otherwise it fails. -/
theorem claim10_timed_wait_iff (read : Nat → Bool) (t0 : Nat) :
    sensorLowHighWait read t0 = true ↔
      ∃ t1, t0 ≤ t1 ∧ t1 ≤ t0 + 1000 ∧ read t1 = false ∧
        (∀ s, t0 ≤ s → s < t1 → read s = true) ∧
        ∃ t2, t1 ≤ t2 ∧ t2 ≤ t1 + 1000 ∧ read t2 = true := by
  rw [sensorLowHighWait, sensorLowHighWaitT]
  cases h1 : waitUntil read false t0 1000 with
  | none =>
    simp only [Option.isSome_none]
    constructor
    · intro hff
      exact (Bool.false_ne_true hff).elim
    · rintro ⟨t1, ha, hb, hc, hd, _⟩
      have : waitUntil read false t0 1000 = some t1 :=
        (waitUntil_eq_some_iff read false 1000 t0 t1).mpr
          ⟨ha, hb, hc, fun s hs1 hs2 => by simp [hd s hs1 hs2]⟩
      rw [h1] at this
      exact (Option.noConfusion this)
  | some t1 =>
    have hprops := (waitUntil_eq_some_iff read false 1000 t0 t1).mp h1
    rw [waitUntil_isSome_iff]
    constructor
    · rintro ⟨k, hk, hr⟩
      refine ⟨t1, hprops.1, hprops.2.1, hprops.2.2.1, ?_, t1 + k, by omega, by omega, hr⟩
      intro s hs1 hs2
      have hne := hprops.2.2.2 s hs1 hs2
      cases hx : read s with
      | false => exact (hne hx).elim
      | true => rfl
    · rintro ⟨t1', ha, hb, hc, hd, t2, he, hf, hg⟩
      have h1' : waitUntil read false t0 1000 = some t1' :=
        (waitUntil_eq_some_iff read false 1000 t0 t1').mpr
          ⟨ha, hb, hc, fun s hs1 hs2 => by simp [hd s hs1 hs2]⟩
      rw [h1] at h1'
      obtain rfl : t1 = t1' := by simpa using h1'
      exact ⟨t2 - t1, by omega, by rwa [show t1 + (t2 - t1) = t2 from by omega]⟩

end DHT22
